import Mathlib

/-!
Verification of the resilience / tracking / monitoring core of the
enhanced-crewai-pipeline repository.

The Python modules are embedded shallowly:

* `src/error_recovery.py` — `CircuitBreaker` (`_call`, `_should_attempt_reset`,
  `_on_success`, `_on_failure`), `RetryMechanism._calculate_delay`,
  `FallbackHandler.execute_fallback`, and the fallback wrapper of
  `ServiceResilienceManager.create_resilient_call`.
* `src/enhanced_ticket_tracking.py` — `EnhancedTicketTracker._is_ready_for_retry`
  and `SmartTicketProcessor.should_process_ticket` with its mutators.
* `src/monitoring_system.py` — `MetricsCollector` (bounded deque store,
  `get_metric_history`, `get_metric_stats`) and the per-rule alert lifecycle of
  `AlertManager._check_alerts`.

Timestamps (`time.time()`, `datetime.now()`) and float-valued metrics are
modelled as rationals; dictionaries read with `.get` are modelled as records of
`Option` fields so that an absent key is distinguished from a present value.
-/

namespace Spec2Proof

/-! ## Circuit breaker (src/error_recovery.py, `CircuitBreaker`) -/

/-- `CircuitState` in src/error_recovery.py (CLOSED / OPEN / HALF_OPEN);
`open` is a Lean keyword so the OPEN constructor is named `opened`. -/
inductive CircuitState where
  | closed
  | opened
  | halfOpen
deriving DecidableEq, Repr

/-- `CircuitBreakerConfig`: the fields the breaker logic reads. -/
structure CircuitBreakerConfig where
  failure_threshold : Nat
  recovery_timeout : ℚ
deriving DecidableEq, Repr

/-- `CircuitBreakerStats`: mutable breaker state. -/
structure CircuitBreakerStats where
  failure_count : Nat
  success_count : Nat
  last_failure_time : Option ℚ
  state : CircuitState
  state_changed_at : ℚ
deriving DecidableEq, Repr

/-- `CircuitBreaker._should_attempt_reset`: true when a last failure time is
recorded and strictly more than `recovery_timeout` has elapsed since it. -/
def shouldAttemptReset (cfg : CircuitBreakerConfig) (s : CircuitBreakerStats)
    (now : ℚ) : Bool :=
  match s.last_failure_time with
  | none => false
  | some t => decide (now - t > cfg.recovery_timeout)

/-- `CircuitBreaker._on_success`: increment `success_count`; a success while
HALF_OPEN closes the breaker and resets `failure_count` to 0. -/
def onSuccess (s : CircuitBreakerStats) (now : ℚ) : CircuitBreakerStats :=
  let s1 := { s with success_count := s.success_count + 1 }
  if s1.state = CircuitState.halfOpen then
    { s1 with state := CircuitState.closed, failure_count := 0,
              state_changed_at := now }
  else s1

/-- `CircuitBreaker._on_failure`: increment `failure_count`, stamp
`last_failure_time`; once the count reaches `failure_threshold` the state is
set to OPEN. -/
def onFailure (cfg : CircuitBreakerConfig) (s : CircuitBreakerStats)
    (now : ℚ) : CircuitBreakerStats :=
  let s1 := { s with failure_count := s.failure_count + 1,
                     last_failure_time := some now }
  if cfg.failure_threshold ≤ s1.failure_count then
    { s1 with state := CircuitState.opened, state_changed_at := now }
  else s1

/-- The admission decision of `CircuitBreaker._call` (the section holding the
lock): an OPEN breaker rejects unless `_should_attempt_reset`, in which case
it moves to HALF_OPEN and admits; any other state admits unchanged. -/
def cbAdmit (cfg : CircuitBreakerConfig) (s : CircuitBreakerStats)
    (now : ℚ) : Bool × CircuitBreakerStats :=
  if s.state = CircuitState.opened then
    if shouldAttemptReset cfg s now then
      (true, { s with state := CircuitState.halfOpen, state_changed_at := now })
    else (false, s)
  else (true, s)

/-- Outcome of one call through the breaker: rejected without invoking the
wrapped function, or invoked with success / failure reported. -/
inductive CallOutcome where
  | rejected
  | succeeded
  | failed
deriving DecidableEq, Repr

/-- `CircuitBreaker._call` over one invocation: admission check, then the
wrapped function runs (its success given by `funcSucceeds`) and the outcome is
reported via `_on_success` / `_on_failure`. -/
def cbCall (cfg : CircuitBreakerConfig) (s : CircuitBreakerStats) (now : ℚ)
    (funcSucceeds : Bool) : CallOutcome × CircuitBreakerStats :=
  match cbAdmit cfg s now with
  | (false, s1) => (CallOutcome.rejected, s1)
  | (true, s1) =>
    if funcSucceeds then (CallOutcome.succeeded, onSuccess s1 now)
    else (CallOutcome.failed, onFailure cfg s1 now)

/-- One success/failure report (with its timestamp) applied to the breaker
state, as `_on_success` / `_on_failure` do. -/
def applyOutcome (cfg : CircuitBreakerConfig) (s : CircuitBreakerStats)
    (o : Bool × ℚ) : CircuitBreakerStats :=
  if o.1 then onSuccess s o.2 else onFailure cfg s o.2

/-- A sequence of success/failure reports applied in order. -/
def applyOutcomes (cfg : CircuitBreakerConfig) (s : CircuitBreakerStats)
    (l : List (Bool × ℚ)) : CircuitBreakerStats :=
  l.foldl (applyOutcome cfg) s

/-- Number of failure reports in a sequence of outcomes. -/
def countFailures (l : List (Bool × ℚ)) : Nat :=
  (l.filter (fun o => !o.1)).length

/-! ## Retry backoff (src/error_recovery.py, `RetryMechanism._calculate_delay`) -/

/-- `RetryConfig`: the fields `_calculate_delay` reads. -/
structure RetryConfig where
  base_delay : ℚ
  max_delay : ℚ
  exponential_base : ℚ
  jitter : Bool
deriving DecidableEq, Repr

/-- `RetryMechanism._calculate_delay`: `min(base_delay * exponential_base **
attempt, max_delay)`, then, when jitter is on, multiplied by
`0.5 + random.random() * 0.5`; the sample `r` of `random.random()` (a value in
`[0, 1)`) is passed explicitly. -/
def calculateDelay (cfg : RetryConfig) (attempt : Nat) (r : ℚ) : ℚ :=
  let delay := min (cfg.base_delay * cfg.exponential_base ^ attempt) cfg.max_delay
  if cfg.jitter then delay * (1/2 + r * (1/2)) else delay

/-! ## Fallback handling (src/error_recovery.py, `FallbackHandler` and
`ServiceResilienceManager.create_resilient_call`) -/

/-- The ways `FallbackHandler.execute_fallback` can fail: the registered
fallback function raised, or no fallback is registered (ValueError). -/
inductive FallbackError (ε : Type) where
  | fbFailed (e : ε)
  | noFallback
deriving DecidableEq, Repr

/-- `FallbackHandler.execute_fallback`: look up the operation in the registry
(`fallback_strategies`); invoke it, re-raising its error; raise ValueError when
nothing is registered. The registry is passed as a lookup function and each
registered fallback's run is its `Except` result. -/
def executeFallback {ε α : Type} (reg : String → Option (Except ε α))
    (operation : String) : Except (FallbackError ε) α :=
  match reg operation with
  | some (Except.ok v) => Except.ok v
  | some (Except.error e) => Except.error (FallbackError.fbFailed e)
  | none => Except.error FallbackError.noFallback

/-- The `try/except` tail of the wrapper built by
`ServiceResilienceManager.create_resilient_call`: run the primary (retry +
breaker) call; on error `e`, try `execute_fallback` for the service; any
failure of the fallback path re-raises the original `e`. -/
def resilientCall {ε α : Type} (reg : String → Option (Except ε α))
    (service : String) (primary : Except ε α) : Except ε α :=
  match primary with
  | Except.ok v => Except.ok v
  | Except.error e =>
    match executeFallback reg service with
    | Except.ok v => Except.ok v
    | Except.error _ => Except.error e

/-! ## Ticket tracking (src/enhanced_ticket_tracking.py) -/

/-- One entry of `processing_history.json` / `ticket_tracking.json`. Every
field is read in the source with `dict.get`, so each is an `Option`; absent
keys are `none`. -/
structure TicketRecord where
  status : Option String := none
  content_hash : Option String := none
  last_update : Option ℚ := none
  retry_count : Option Nat := none
  last_attempt : Option ℚ := none
  last_error : Option String := none
  reprocess_reason : Option String := none
deriving DecidableEq, Repr

/-- The configuration dictionary of `EnhancedTicketTracker.__init__`
(the fields the retry logic reads). -/
structure TrackerConfig where
  max_retries : Nat := 3
  retry_delays : List Nat := [300, 900, 3600, 7200]
deriving DecidableEq, Repr

/-- The default tracker configuration from `EnhancedTicketTracker.__init__`. -/
def defaultTrackerConfig : TrackerConfig := {}

/-- `EnhancedTicketTracker._is_ready_for_retry`. Note the Python truthiness
test `if not last_attempt`: a missing `last_attempt` and a zero one are both
treated as "no previous attempt" and are immediately eligible. -/
def isReadyForRetry (cfg : TrackerConfig) (r : TicketRecord) (now : ℚ) : Bool :=
  if r.status ≠ some "failed" then false
  else if cfg.max_retries ≤ r.retry_count.getD 0 then false
  else
    match r.last_attempt with
    | none => true
    | some t =>
      if t = 0 then true
      else
        let idx := min (r.retry_count.getD 0) (cfg.retry_delays.length - 1)
        decide ((cfg.retry_delays.getD idx 0 : ℚ) ≤ now - t)

/-- The processing-history map, ticket key to record (the JSON object held in
`processing_history.json`). -/
def History : Type := List (String × TicketRecord)

/-- Key lookup in the history map. -/
def lookupHistory : History → String → Option TicketRecord
  | [], _ => none
  | (k, r) :: rest, key => if k = key then some r else lookupHistory rest key

/-- `history[ticket_key].update(...)` preceded by `if ticket_key not in
history: history[ticket_key] = {}`: apply `f` to the key's record, inserting a
fresh empty record first when the key is absent. -/
def updateHistory : History → String → (TicketRecord → TicketRecord) → History
  | [], key, f => [(key, f {})]
  | (k, r) :: rest, key, f =>
    if k = key then (k, f r) :: rest else (k, r) :: updateHistory rest key f

/-- The observed Jira ticket fields that `_calculate_content_hash` reads. -/
structure TicketData where
  summary : String
  description : String
deriving DecidableEq, Repr

/-- `SmartTicketProcessor._calculate_content_hash`: the MD5 hex digest of
summary concatenated with description. MD5 itself lives in Python's `hashlib`;
it is passed as the abstract digest function `md5hex`. -/
def calcContentHash (md5hex : String → String) (td : TicketData) : String :=
  md5hex (td.summary ++ td.description)

/-- `SmartTicketProcessor._mark_for_reprocessing`: set the record's status to
`needs_reprocessing`, store the reason, stamp `last_update` with the current
time. -/
def markForReprocessing (h : History) (key : String) (reason : String)
    (now : ℚ) : History :=
  updateHistory h key (fun r =>
    { r with status := some "needs_reprocessing",
             reprocess_reason := some reason,
             last_update := some now })

/-- `SmartTicketProcessor.mark_processing_complete` (the tracked fields):
status `completed`, stamp `last_update`, reset `retry_count` to 0. No
`content_hash` key is written. -/
def markProcessingComplete (h : History) (key : String) (now : ℚ) : History :=
  updateHistory h key (fun r =>
    { r with status := some "completed", last_update := some now,
             retry_count := some 0 })

/-- `SmartTicketProcessor.mark_processing_failed` (the tracked fields):
status `failed`, stamp `last_update` and `last_attempt`, store the error,
increment `retry_count`. -/
def markProcessingFailed (h : History) (key : String) (error : String)
    (now : ℚ) : History :=
  updateHistory h key (fun r =>
    { r with status := some "failed", last_update := some now,
             last_attempt := some now, last_error := some error,
             retry_count := some (r.retry_count.getD 0 + 1) })

/-- `SmartTicketProcessor.should_process_ticket`: returns the decision and the
(possibly rewritten) processing history; `now` stands for `time.time()`. -/
def shouldProcessTicket (md5hex : String → String) (cfg : TrackerConfig)
    (h : History) (key : String) (td : TicketData) (now : ℚ) :
    Bool × History :=
  match lookupHistory h key with
  | none => (true, h)
  | some r =>
    if r.status = some "completed" then
      if some (calcContentHash md5hex td) ≠ r.content_hash then
        (true, markForReprocessing h key "Content changed" now)
      else (false, h)
    else if r.status = some "processing" then
      if now - r.last_update.getD 0 > 3600 then (true, h) else (false, h)
    else if r.status = some "failed" then
      (isReadyForRetry cfg r now, h)
    else if r.status = some "needs_reprocessing" then (true, h)
    else (true, h)

/-! ## Metrics collection (src/monitoring_system.py, `MetricsCollector`) -/

/-- A recorded metric sample: the fields the statistics read (name is the
store key; labels and unit do not affect the verified behaviour). -/
structure Metric where
  value : ℚ
  timestamp : ℚ
deriving DecidableEq, Repr

/-- The per-name bounded deque append of `record_metric`: the store is a
`deque(maxlen := cap)`, so appending at capacity evicts the oldest entry. -/
def pushCap (cap : Nat) (ms : List Metric) (m : Metric) : List Metric :=
  if ms.length < cap then ms ++ [m] else ms.drop 1 ++ [m]

/-- The `self.metrics` defaultdict: metric name to its sample deque. -/
def MetricStore : Type := List (String × List Metric)

/-- Name lookup in the metric store. -/
def lookupStore : MetricStore → String → Option (List Metric)
  | [], _ => none
  | (n, ms) :: rest, name => if n = name then some ms else lookupStore rest name

/-- defaultdict update: apply `f` to the name's deque, starting it from the
empty deque when the name is new. -/
def updateStore : MetricStore → String → (List Metric → List Metric) →
    MetricStore
  | [], name, f => [(name, f [])]
  | (n, ms) :: rest, name, f =>
    if n = name then (n, f ms) :: rest else (n, ms) :: updateStore rest name f

/-- `MetricsCollector.record_metric` with capacity `cap =
retention_hours * 60`: append the sample to the name's bounded deque. -/
def recordMetric (cap : Nat) (store : MetricStore) (name : String)
    (m : Metric) : MetricStore :=
  updateStore store name (fun ms => pushCap cap ms m)

/-- A whole sequence of `record_metric` calls starting from a fresh
collector. -/
def applyRecords (cap : Nat) (calls : List (String × Metric)) : MetricStore :=
  calls.foldl (fun st c => recordMetric cap st c.1 c.2) []

/-- The samples of `calls` addressed to `name`, in call order. -/
def projectCalls (name : String) : List (String × Metric) → List Metric
  | [] => []
  | (n, m) :: rest =>
    if n = name then m :: projectCalls name rest else projectCalls name rest

/-- `MetricsCollector.get_metric_history`: the name's samples whose timestamp
is at least `now - duration_minutes` worth of cutoff (the cutoff is passed
here directly as `cutoff = now - duration`). -/
def getMetricHistory (store : MetricStore) (name : String) (durationMinutes : ℚ)
    (now : ℚ) : List Metric :=
  match lookupStore store name with
  | none => []
  | some ms => ms.filter (fun m => decide (now - durationMinutes ≤ m.timestamp))

/-- The dictionary `get_metric_stats` builds on a non-empty history. The code
stores `statistics.stdev(values)` (0 when fewer than two samples); here
`std_sq` holds its square, the sample variance, and `MetricStats.stdIs` below
relates it to the reported standard deviation. -/
structure MetricStats where
  count : Nat
  min : ℚ
  max : ℚ
  avg : ℚ
  median : ℚ
  std_sq : ℚ
deriving DecidableEq, Repr

/-- `x` is the standard deviation the code reports for stats `s`: the
non-negative square root of the sample variance. -/
def MetricStats.stdIs (s : MetricStats) (x : ℝ) : Prop :=
  0 ≤ x ∧ x ^ 2 = (s.std_sq : ℝ)

/-- `statistics.median`: middle of the sorted values (mean of the two middles
for an even count). -/
def medianOf (values : List ℚ) : ℚ :=
  let s := values.insertionSort (· ≤ ·)
  let n := s.length
  if n % 2 = 1 then s.getD (n / 2) 0
  else (s.getD (n / 2 - 1) 0 + s.getD (n / 2) 0) / 2

/-- `MetricsCollector.get_metric_stats`: `{}` (here `none`) on an empty
window, otherwise count / min / max / mean / median and the sample variance
(square of `statistics.stdev`, 0 when only one sample). -/
def getMetricStats (store : MetricStore) (name : String) (durationMinutes : ℚ)
    (now : ℚ) : Option MetricStats :=
  match getMetricHistory store name durationMinutes now with
  | [] => none
  | v :: vs =>
    let values := (v :: vs).map Metric.value
    let n : Nat := values.length
    let mean := values.sum / (n : ℚ)
    some
      { count := n
        min := vs.foldl (fun a m => Min.min a m.value) v.value
        max := vs.foldl (fun a m => Max.max a m.value) v.value
        avg := mean
        median := medianOf values
        std_sq :=
          if 1 < n then
            (values.map (fun x => (x - mean) ^ 2)).sum / ((n : ℚ) - 1)
          else 0 }

/-! ## Alert lifecycle (src/monitoring_system.py, `AlertManager._check_alerts`)

For one rule key (`rule.name + "_" + rule.metric_name`) the loop keeps the key
in `active_alerts` exactly while the rule evaluates true: a true evaluation of
an inactive key fires the alert (dispatching one notification round), a false
evaluation of an active key resolves it, anything else is a no-op. -/

/-- One `_check_alerts` evaluation for one rule key: current active flag and
the evaluation result give the new active flag and the number of alerts fired
(notifications dispatched) at this step. -/
def alertStep (active : Bool) (shouldAlert : Bool) : Bool × Nat :=
  if shouldAlert && !active then (true, 1)
  else if !shouldAlert && active then (false, 0)
  else (active, 0)

/-- A sequence of evaluation results folded through `alertStep`: final active
flag and total number of alerts fired. -/
def alertRun (active : Bool) : List Bool → Bool × Nat
  | [] => (active, 0)
  | e :: es =>
    let s := alertStep active e
    let rest := alertRun s.1 es
    (rest.1, s.2 + rest.2)

/-- Number of rising edges (false-to-true transitions) in an evaluation
sequence, the previous value starting at `prev`. -/
def risingEdges (prev : Bool) : List Bool → Nat
  | [] => 0
  | e :: es => (if e && !prev then 1 else 0) + risingEdges e es

/-- The last element of an evaluation sequence, `a` when it is empty. -/
def lastEval (a : Bool) : List Bool → Bool
  | [] => a
  | e :: es => lastEval e es

/-! ## Helper lemmas -/

theorem countFailures_nil : countFailures [] = 0 := rfl

theorem countFailures_cons_true (t : ℚ) (l : List (Bool × ℚ)) :
    countFailures ((true, t) :: l) = countFailures l := by
  simp [countFailures, List.filter_cons]

theorem countFailures_cons_false (t : ℚ) (l : List (Bool × ℚ)) :
    countFailures ((false, t) :: l) = countFailures l + 1 := by
  simp [countFailures, List.filter_cons]

theorem applyOutcomes_nil (cfg : CircuitBreakerConfig)
    (s : CircuitBreakerStats) : applyOutcomes cfg s [] = s := rfl

theorem applyOutcomes_cons (cfg : CircuitBreakerConfig)
    (s : CircuitBreakerStats) (o : Bool × ℚ) (l : List (Bool × ℚ)) :
    applyOutcomes cfg s (o :: l) = applyOutcomes cfg (applyOutcome cfg s o) l :=
  rfl

theorem applyOutcome_true (cfg : CircuitBreakerConfig)
    (s : CircuitBreakerStats) (t : ℚ) :
    applyOutcome cfg s (true, t) = onSuccess s t := rfl

theorem applyOutcome_false (cfg : CircuitBreakerConfig)
    (s : CircuitBreakerStats) (t : ℚ) :
    applyOutcome cfg s (false, t) = onFailure cfg s t := rfl

/-- A success outside HALF_OPEN only increments `success_count`. -/
theorem onSuccess_of_not_halfOpen (s : CircuitBreakerStats) (t : ℚ)
    (h : s.state ≠ CircuitState.halfOpen) :
    onSuccess s t = { s with success_count := s.success_count + 1 } := by
  simp [onSuccess, h]

theorem onSuccess_failure_count (s : CircuitBreakerStats) (t : ℚ)
    (h : s.state ≠ CircuitState.halfOpen) :
    (onSuccess s t).failure_count = s.failure_count := by
  rw [onSuccess_of_not_halfOpen s t h]

theorem onSuccess_state (s : CircuitBreakerStats) (t : ℚ)
    (h : s.state ≠ CircuitState.halfOpen) :
    (onSuccess s t).state = s.state := by
  rw [onSuccess_of_not_halfOpen s t h]

/-- A success while HALF_OPEN closes the breaker and zeroes the failures. -/
theorem onSuccess_of_halfOpen (s : CircuitBreakerStats) (t : ℚ)
    (h : s.state = CircuitState.halfOpen) :
    (onSuccess s t).state = CircuitState.closed ∧
    (onSuccess s t).failure_count = 0 := by
  simp [onSuccess, h]

theorem onFailure_failure_count (cfg : CircuitBreakerConfig)
    (s : CircuitBreakerStats) (t : ℚ) :
    (onFailure cfg s t).failure_count = s.failure_count + 1 := by
  simp only [onFailure]
  split <;> simp

theorem onFailure_state_opened (cfg : CircuitBreakerConfig)
    (s : CircuitBreakerStats) (t : ℚ)
    (h : cfg.failure_threshold ≤ s.failure_count + 1) :
    (onFailure cfg s t).state = CircuitState.opened := by
  simp [onFailure, h]

theorem onFailure_state_stays (cfg : CircuitBreakerConfig)
    (s : CircuitBreakerStats) (t : ℚ)
    (h : ¬ cfg.failure_threshold ≤ s.failure_count + 1) :
    (onFailure cfg s t).state = s.state := by
  simp [onFailure, h]

/-- Outcome reports applied to an Open breaker whose failure count has reached
the threshold leave it Open; the failure count grows by the number of failure
reports. -/
theorem applyOutcomes_open (cfg : CircuitBreakerConfig) :
    ∀ (l : List (Bool × ℚ)) (s : CircuitBreakerStats),
      s.state = CircuitState.opened →
      cfg.failure_threshold ≤ s.failure_count →
      (applyOutcomes cfg s l).state = CircuitState.opened ∧
      (applyOutcomes cfg s l).failure_count =
        s.failure_count + countFailures l := by
  intro l
  induction l with
  | nil => intro s hs hc; simp [applyOutcomes_nil, hs, countFailures_nil]
  | cons o rest ih =>
    intro s hs hc
    rcases o with ⟨r, t⟩
    cases r with
    | true =>
      rw [applyOutcomes_cons, countFailures_cons_true, applyOutcome_true]
      have hns : s.state ≠ CircuitState.halfOpen := by rw [hs]; intro h; cases h
      have := ih (onSuccess s t)
        (by rw [onSuccess_state s t hns, hs])
        (by rw [onSuccess_failure_count s t hns]; exact hc)
      rw [this.2, onSuccess_failure_count s t hns]
      exact ⟨this.1, rfl⟩
    | false =>
      rw [applyOutcomes_cons, countFailures_cons_false, applyOutcome_false]
      have hth : cfg.failure_threshold ≤ s.failure_count + 1 := by omega
      have := ih (onFailure cfg s t)
        (onFailure_state_opened cfg s t hth)
        (by rw [onFailure_failure_count]; omega)
      rw [this.2, onFailure_failure_count]
      exact ⟨this.1, by omega⟩

/-- Outcome reports applied to a Closed breaker: the failure count grows by
the number of failure reports, and the final state is Closed while the total
stays below the threshold (or no failure occurred), Open otherwise. -/
theorem applyOutcomes_closed (cfg : CircuitBreakerConfig) :
    ∀ (l : List (Bool × ℚ)) (s : CircuitBreakerStats),
      s.state = CircuitState.closed →
      (applyOutcomes cfg s l).failure_count =
        s.failure_count + countFailures l ∧
      (((applyOutcomes cfg s l).state = CircuitState.closed ∧
          (countFailures l = 0 ∨
            s.failure_count + countFailures l < cfg.failure_threshold)) ∨
        ((applyOutcomes cfg s l).state = CircuitState.opened ∧
          1 ≤ countFailures l ∧
          cfg.failure_threshold ≤ s.failure_count + countFailures l)) := by
  intro l
  induction l with
  | nil =>
    intro s hs
    simp [applyOutcomes_nil, hs, countFailures_nil]
  | cons o rest ih =>
    intro s hs
    rcases o with ⟨r, t⟩
    cases r with
    | true =>
      rw [applyOutcomes_cons, countFailures_cons_true, applyOutcome_true]
      have hns : s.state ≠ CircuitState.halfOpen := by rw [hs]; intro h; cases h
      have := ih (onSuccess s t) (by rw [onSuccess_state s t hns, hs])
      rw [onSuccess_failure_count s t hns] at this
      exact this
    | false =>
      rw [applyOutcomes_cons, countFailures_cons_false, applyOutcome_false]
      by_cases hth : cfg.failure_threshold ≤ s.failure_count + 1
      · have hop := applyOutcomes_open cfg rest (onFailure cfg s t)
          (onFailure_state_opened cfg s t hth)
          (by rw [onFailure_failure_count]; exact hth)
        rw [onFailure_failure_count] at hop
        constructor
        · rw [hop.2]; omega
        · right
          exact ⟨hop.1, by omega, by omega⟩
      · have := ih (onFailure cfg s t)
          (by rw [onFailure_state_stays cfg s t hth, hs])
        rw [onFailure_failure_count] at this
        rcases this with ⟨hcount, hstate⟩
        constructor
        · rw [hcount]; omega
        · rcases hstate with ⟨hcl, hcond⟩ | ⟨hop, h1f, hthr⟩
          · exact Or.inl ⟨hcl, Or.inr (by omega)⟩
          · exact Or.inr ⟨hop, by omega, by omega⟩

/-! ## Claim theorems: circuit breaker -/

/-- C2: once `failure_count` has reached `failure_threshold` the breaker state
is Open (`_on_failure` opens exactly when the incremented count reaches the
threshold); every call on an Open breaker made while no more than
`recovery_timeout` has elapsed since `last_failure_time` is rejected with the
circuit-open error, leaving the stats untouched and never invoking the wrapped
function (the outcome is `rejected` for every value of `funcSucceeds`); and a
Closed breaker can only move to Open through a call whose failure brings
`failure_count` up to the threshold. -/
theorem claim_C2_open_breaker_fast_fails (cfg : CircuitBreakerConfig)
    (s : CircuitBreakerStats) (now t : ℚ) (fres : Bool)
    (hopen : s.state = CircuitState.opened)
    (hlast : s.last_failure_time = some t)
    (helapsed : now - t ≤ cfg.recovery_timeout) :
    cbCall cfg s now fres = (CallOutcome.rejected, s) ∧
    (∀ (s2 : CircuitBreakerStats) (t2 : ℚ),
      cfg.failure_threshold ≤ (onFailure cfg s2 t2).failure_count →
      (onFailure cfg s2 t2).state = CircuitState.opened) ∧
    (∀ (s2 : CircuitBreakerStats) (t2 : ℚ) (f2 : Bool),
      s2.state = CircuitState.closed →
      (cbCall cfg s2 t2 f2).2.state = CircuitState.opened →
      cfg.failure_threshold ≤ (cbCall cfg s2 t2 f2).2.failure_count) := by
  have hns : ¬ (cfg.recovery_timeout < now - t) := not_lt.mpr helapsed
  refine ⟨?_, ?_, ?_⟩
  · simp [cbCall, cbAdmit, shouldAttemptReset, hopen, hlast, hns]
  · intro s2 t2 h
    rw [onFailure_failure_count] at h
    exact onFailure_state_opened cfg s2 t2 h
  · intro s2 t2 f2 hcl
    have hadm : cbAdmit cfg s2 t2 = (true, s2) := by simp [cbAdmit, hcl]
    have hns2 : s2.state ≠ CircuitState.halfOpen := by rw [hcl]; intro h; cases h
    cases f2 with
    | true =>
      have hcc : cbCall cfg s2 t2 true = (CallOutcome.succeeded, onSuccess s2 t2) := by
        simp [cbCall, hadm]
      rw [hcc]
      intro hopn
      rw [onSuccess_state s2 t2 hns2, hcl] at hopn
      cases hopn
    | false =>
      have hcc : cbCall cfg s2 t2 false =
          (CallOutcome.failed, onFailure cfg s2 t2) := by
        simp [cbCall, hadm]
      rw [hcc]
      intro hopn
      rw [onFailure_failure_count]
      by_cases hth : cfg.failure_threshold ≤ s2.failure_count + 1
      · exact hth
      · rw [onFailure_state_stays cfg s2 t2 hth, hcl] at hopn
        cases hopn

/-- Witness for C2: breaker with threshold 2 is Open after 2 failures
(last at time 0); a call at time 5 with timeout 10 is rejected unchanged. -/
theorem claim_C2_witness :
    cbCall ⟨2, 10⟩ ⟨2, 0, some 0, CircuitState.opened, 0⟩ 5 true =
      (CallOutcome.rejected, ⟨2, 0, some 0, CircuitState.opened, 0⟩) :=
  (claim_C2_open_breaker_fast_fails ⟨2, 10⟩
    ⟨2, 0, some 0, CircuitState.opened, 0⟩ 5 0 true rfl rfl (by norm_num)).1

/-- C3 counterexample: with threshold 3 and recovery timeout 1, a breaker Open
since time 0 admits a call at time 2, moving to HalfOpen — but a second call
issued while that probe is still unresolved (the state is still HalfOpen, no
outcome reported) is also admitted: `_call` only rejects in the OPEN state, so
the code does not admit exactly one probe. -/
theorem claim_C3_counterexample :
    (cbAdmit ⟨3, 1⟩ ⟨3, 0, some 0, CircuitState.opened, 0⟩ 2).1 = true ∧
    (cbAdmit ⟨3, 1⟩ ⟨3, 0, some 0, CircuitState.opened, 0⟩ 2).2.state =
      CircuitState.halfOpen ∧
    (cbAdmit ⟨3, 1⟩
      (cbAdmit ⟨3, 1⟩ ⟨3, 0, some 0, CircuitState.opened, 0⟩ 2).2 2).1 = true ∧
    (cbAdmit ⟨3, 1⟩
      (cbAdmit ⟨3, 1⟩ ⟨3, 0, some 0, CircuitState.opened, 0⟩ 2).2 2).2.state =
      CircuitState.halfOpen := by
  refine ⟨?_, ?_, ?_, ?_⟩ <;> simp [cbAdmit, shouldAttemptReset]

/-- C3 (amended): for an Open breaker, once strictly more than
`recovery_timeout` has elapsed since `last_failure_time`, the next call is
admitted and transitions the state to HalfOpen; however the code does not
restrict probing to a single call — while the state is HalfOpen every call is
admitted with the stats unchanged. A probe success sets the state to Closed
with `failure_count` reset to 0, and a probe failure sets the state to Open
whenever `failure_count + 1` has reached the threshold (which holds in every
reachable HalfOpen state, since entering Open required `failure_count ≥`
threshold and the count is not reset before the probe resolves). -/
theorem claim_C3_amended_probe_lifecycle (cfg : CircuitBreakerConfig)
    (s : CircuitBreakerStats) (now t : ℚ)
    (hopen : s.state = CircuitState.opened)
    (hlast : s.last_failure_time = some t)
    (helapsed : cfg.recovery_timeout < now - t) :
    cbAdmit cfg s now =
      (true, { s with state := CircuitState.halfOpen,
                      state_changed_at := now }) ∧
    (∀ (s2 : CircuitBreakerStats) (t2 : ℚ),
      s2.state = CircuitState.halfOpen → cbAdmit cfg s2 t2 = (true, s2)) ∧
    (∀ (s2 : CircuitBreakerStats) (t2 : ℚ),
      s2.state = CircuitState.halfOpen →
      (onSuccess s2 t2).state = CircuitState.closed ∧
      (onSuccess s2 t2).failure_count = 0) ∧
    (∀ (s2 : CircuitBreakerStats) (t2 : ℚ),
      s2.state = CircuitState.halfOpen →
      cfg.failure_threshold ≤ s2.failure_count + 1 →
      (onFailure cfg s2 t2).state = CircuitState.opened) := by
  refine ⟨?_, ?_, ?_, ?_⟩
  · simp [cbAdmit, shouldAttemptReset, hopen, hlast, helapsed]
  · intro s2 t2 h2
    have : s2.state ≠ CircuitState.opened := by rw [h2]; intro h; cases h
    simp [cbAdmit, this]
  · intro s2 t2 h2
    exact onSuccess_of_halfOpen s2 t2 h2
  · intro s2 t2 _ hth
    exact onFailure_state_opened cfg s2 t2 hth

/-- Witness for C3 (amended): threshold 3, timeout 1, Open since time 0;
at time 2 the call is admitted into HalfOpen. -/
theorem claim_C3_amended_witness :
    cbAdmit ⟨3, 1⟩ ⟨3, 0, some 0, CircuitState.opened, 0⟩ 2 =
      (true, ⟨3, 0, some 0, CircuitState.halfOpen, 2⟩) :=
  (claim_C3_amended_probe_lifecycle ⟨3, 1⟩
    ⟨3, 0, some 0, CircuitState.opened, 0⟩ 2 0 rfl rfl (by norm_num)).1

/-- C10: a success reported while the breaker is Closed only increments
`success_count` (in particular `failure_count` is not reset and no other field
changes), and consequently, over any interleaving of success and failure
reports starting from a Closed breaker, the failure count accumulates by the
number of failures and the breaker ends Open exactly when at least one failure
occurred and the accumulated failure count has reached the threshold — the
failures need not be consecutive. -/
theorem claim_C10_success_keeps_failure_count (cfg : CircuitBreakerConfig)
    (s : CircuitBreakerStats) (now : ℚ) (l : List (Bool × ℚ))
    (hclosed : s.state = CircuitState.closed) :
    onSuccess s now = { s with success_count := s.success_count + 1 } ∧
    (applyOutcomes cfg s l).failure_count = s.failure_count + countFailures l ∧
    ((applyOutcomes cfg s l).state = CircuitState.opened ↔
      1 ≤ countFailures l ∧
      cfg.failure_threshold ≤ s.failure_count + countFailures l) := by
  have hns : s.state ≠ CircuitState.halfOpen := by rw [hclosed]; intro h; cases h
  have h := applyOutcomes_closed cfg l s hclosed
  refine ⟨onSuccess_of_not_halfOpen s now hns, h.1, ?_, ?_⟩
  · intro hopn
    rcases h.2 with ⟨hcl, _⟩ | ⟨_, h1f, hthr⟩
    · rw [hcl] at hopn; cases hopn
    · exact ⟨h1f, hthr⟩
  · rintro ⟨h1f, hthr⟩
    rcases h.2 with ⟨_, hcond⟩ | ⟨hop, _, _⟩
    · rcases hcond with h0 | hlt
      · omega
      · omega
    · exact hop

/-- Witness for C10: threshold 2, from a fresh Closed breaker the interleaved
sequence failure, success, failure ends with the breaker Open. -/
theorem claim_C10_witness :
    (applyOutcomes ⟨2, 10⟩ ⟨0, 0, none, CircuitState.closed, 0⟩
        [(false, 1), (true, 2), (false, 3)]).state = CircuitState.opened :=
  (claim_C10_success_keeps_failure_count ⟨2, 10⟩
      ⟨0, 0, none, CircuitState.closed, 0⟩ 0
      [(false, 1), (true, 2), (false, 3)] rfl).2.2.mpr (by decide)

/-! ## Claim theorems: retry backoff and fallback -/

/-- C7: with the jitter flag disabled the computed retry delay equals
`min(base_delay * exponential_base ^ i, max_delay)` exactly, is non-decreasing
in the attempt index (for the exponential-backoff configurations, i.e.
non-negative base delay and exponential base at least 1), and is bounded above
by `max_delay`; with jitter enabled the delay is that value scaled by the
factor `0.5 + r * 0.5`, which lies in `[0.5, 1]` for every random sample
`r ∈ [0, 1)`. -/
theorem claim_C7_backoff_delay (cfg : RetryConfig) (i : Nat) (r : ℚ)
    (hb : 0 ≤ cfg.base_delay) (he : 1 ≤ cfg.exponential_base)
    (hr0 : 0 ≤ r) (hr1 : r < 1) :
    (cfg.jitter = false →
      calculateDelay cfg i r =
        min (cfg.base_delay * cfg.exponential_base ^ i) cfg.max_delay ∧
      calculateDelay cfg i r ≤ calculateDelay cfg (i + 1) r ∧
      calculateDelay cfg i r ≤ cfg.max_delay) ∧
    (cfg.jitter = true →
      calculateDelay cfg i r =
        min (cfg.base_delay * cfg.exponential_base ^ i) cfg.max_delay *
          (1/2 + r * (1/2)) ∧
      1/2 ≤ 1/2 + r * (1/2) ∧ 1/2 + r * (1/2) ≤ 1) := by
  constructor
  · intro hj
    refine ⟨by simp [calculateDelay, hj], ?_, ?_⟩
    · simp only [calculateDelay, hj, Bool.false_eq_true, if_false]
      refine min_le_min ?_ le_rfl
      exact mul_le_mul_of_nonneg_left
        (pow_le_pow_right₀ he (Nat.le_succ i)) hb
    · simp only [calculateDelay, hj, Bool.false_eq_true, if_false]
      exact min_le_right _ _
  · intro hj
    refine ⟨by simp [calculateDelay, hj], by linarith, by linarith⟩

/-- Witness for C7: base delay 1, max delay 60, exponential base 2, jitter
off, attempt 3. -/
theorem claim_C7_witness :
    calculateDelay ⟨1, 60, 2, false⟩ 3 0 =
      min ((1 : ℚ) * 2 ^ 3) 60 :=
  ((claim_C7_backoff_delay ⟨1, 60, 2, false⟩ 3 0 (by norm_num) (by norm_num)
    le_rfl (by norm_num)).1 rfl).1

/-- C8: when the primary (retry + breaker) call fails with error `e` and a
fallback is registered for the service, the fallback is invoked: its success
value is returned, and if the fallback itself fails the error propagated to
the caller is the original `e`, not the fallback's. -/
theorem claim_C8_fallback_preserves_original_error (ε α : Type)
    (reg : String → Option (Except ε α)) (service : String) (e : ε)
    (fb : Except ε α) (hreg : reg service = some fb) :
    (∀ v : α, fb = Except.ok v →
      resilientCall reg service (Except.error e) = Except.ok v) ∧
    (∀ f : ε, fb = Except.error f →
      resilientCall reg service (Except.error e) = Except.error e) := by
  constructor
  · intro v hv
    rw [hv] at hreg
    simp [resilientCall, executeFallback, hreg]
  · intro f hf
    rw [hf] at hreg
    simp [resilientCall, executeFallback, hreg]

/-- Witness for C8: a registered fallback returning 7 rescues a failed
primary call. -/
theorem claim_C8_witness :
    resilientCall
      (fun s => if s = "openai" then some (Except.ok 7) else none)
      "openai" (Except.error "boom") = Except.ok (7 : Nat) :=
  (claim_C8_fallback_preserves_original_error String Nat
    (fun s => if s = "openai" then some (Except.ok 7) else none)
    "openai" "boom" (Except.ok 7) (by simp)).1 7 rfl

/-! ## Claim theorems: ticket tracking -/

theorem lookupHistory_updateHistory_self (h : History) (key : String)
    (f : TicketRecord → TicketRecord) :
    lookupHistory (updateHistory h key f) key =
      some (f ((lookupHistory h key).getD {})) := by
  induction h with
  | nil => simp [lookupHistory, updateHistory]
  | cons p rest ih =>
    rcases p with ⟨k, r⟩
    by_cases hk : k = key
    · simp [lookupHistory, updateHistory, hk]
    · simp [lookupHistory, updateHistory, hk, ih]

/-- C1: for a ticket whose stored processing-history status is `completed`,
`should_process_ticket` returns false — at every later call, with the history
unchanged — whenever the MD5 content hash of the observed summary+description
equals the stored `content_hash`; whenever the hash differs it rewrites the
stored record's status to `needs_reprocessing` (reason "Content changed",
`last_update` stamped) and returns true. -/
theorem claim_C1_completed_content_hash_gate (md5hex : String → String)
    (cfg : TrackerConfig) (h : History) (key : String) (td : TicketData)
    (now : ℚ) (r : TicketRecord)
    (hlook : lookupHistory h key = some r)
    (hst : r.status = some "completed") :
    (r.content_hash = some (calcContentHash md5hex td) →
      ∀ now2 : ℚ,
        shouldProcessTicket md5hex cfg h key td now2 = (false, h)) ∧
    (r.content_hash ≠ some (calcContentHash md5hex td) →
      (shouldProcessTicket md5hex cfg h key td now).1 = true ∧
      lookupHistory (shouldProcessTicket md5hex cfg h key td now).2 key =
        some { r with status := some "needs_reprocessing",
                      reprocess_reason := some "Content changed",
                      last_update := some now }) := by
  constructor
  · intro hhash now2
    simp [shouldProcessTicket, hlook, hst, hhash]
  · intro hne
    have hne2 : some (calcContentHash md5hex td) ≠ r.content_hash :=
      fun hcontra => hne hcontra.symm
    constructor
    · simp [shouldProcessTicket, hlook, hst, hne2]
    · simp [shouldProcessTicket, hlook, hst, hne2, markForReprocessing,
        lookupHistory_updateHistory_self]

/-- Witness for C1: a completed record whose stored hash matches the observed
content is skipped with the history unchanged. -/
theorem claim_C1_witness :
    shouldProcessTicket (fun s => s) defaultTrackerConfig
      [("T-1", { status := some "completed", content_hash := some "abc" })]
      "T-1" ⟨"ab", "c"⟩ 5 =
      (false,
        [("T-1",
          { status := some "completed", content_hash := some "abc" })]) :=
  (claim_C1_completed_content_hash_gate (fun s => s) defaultTrackerConfig
      [("T-1", { status := some "completed", content_hash := some "abc" })]
      "T-1" ⟨"ab", "c"⟩ 5
      { status := some "completed", content_hash := some "abc" }
      (by simp [lookupHistory]) rfl).1 rfl 5

/-- C4 counterexample: the record `{status: failed, retry_count: 0,
last_attempt: 0.0}` is reported retry-eligible at `now = 10` by
`_is_ready_for_retry` (the Python truthiness test `if not last_attempt` treats
the timestamp `0.0` as missing), although the claim's formula requires
`now − last_attempt = 10 ≥ 300`, which is false — so eligibility is not
equivalent to the claimed conjunction. -/
theorem claim_C4_counterexample :
    isReadyForRetry defaultTrackerConfig
      { status := some "failed", retry_count := some 0,
        last_attempt := some 0 } 10 = true ∧
    ¬ (((0 : ℕ) < defaultTrackerConfig.max_retries) ∧
        ((defaultTrackerConfig.retry_delays.getD
            (min 0 (defaultTrackerConfig.retry_delays.length - 1)) 0 : ℚ) ≤
          (10 : ℚ) - 0)) := by
  constructor
  · simp [isReadyForRetry, defaultTrackerConfig]
  · intro hcontra
    have := hcontra.2
    norm_num [defaultTrackerConfig] at this

/-- C4 (amended): for a record with status `failed` whose `last_attempt` is
present and nonzero, it is retry-eligible iff `retry_count < max_retries` and
`now − last_attempt ≥ retry_delays[min(retry_count, len(retry_delays)−1)]`
(the last table entry reused beyond the table); a record whose `last_attempt`
is missing or `0` is eligible as soon as `retry_count < max_retries`; and once
`retry_count ≥ max_retries` the record is never retry-eligible again. -/
theorem claim_C4_amended_retry_eligibility (cfg : TrackerConfig)
    (r : TicketRecord) (now t : ℚ)
    (hst : r.status = some "failed")
    (hla : r.last_attempt = some t) (ht : t ≠ 0) :
    (isReadyForRetry cfg r now = true ↔
      (r.retry_count.getD 0 < cfg.max_retries ∧
        (cfg.retry_delays.getD
            (min (r.retry_count.getD 0) (cfg.retry_delays.length - 1)) 0
          : ℚ) ≤ now - t)) ∧
    (∀ (r2 : TicketRecord), r2.last_attempt = none →
      r2.status = some "failed" →
      r2.retry_count.getD 0 < cfg.max_retries →
      ∀ now2 : ℚ, isReadyForRetry cfg r2 now2 = true) ∧
    (∀ (r2 : TicketRecord) (now2 : ℚ),
      cfg.max_retries ≤ r2.retry_count.getD 0 →
      isReadyForRetry cfg r2 now2 = false) := by
  refine ⟨?_, ?_, ?_⟩
  · by_cases hrc : cfg.max_retries ≤ r.retry_count.getD 0
    · simp [isReadyForRetry, hst, hrc]
    · simp [isReadyForRetry, hst, hrc, hla, ht]
      omega
  · intro r2 hla2 hst2 hrc2 now2
    simp [isReadyForRetry, hst2, hla2]
    omega
  · intro r2 now2 h2
    by_cases hs2 : r2.status = some "failed"
    · simp [isReadyForRetry, hs2, h2]
    · simp [isReadyForRetry, hs2]

/-- Witness for C4 (amended): a failed record with one prior retry, last
attempted at time 100, is eligible at time 1100 (1000 ≥ 900, the second delay
table entry). -/
theorem claim_C4_amended_witness :
    isReadyForRetry defaultTrackerConfig
      { status := some "failed", retry_count := some 1,
        last_attempt := some 100 } 1100 = true :=
  (claim_C4_amended_retry_eligibility defaultTrackerConfig
      { status := some "failed", retry_count := some 1,
        last_attempt := some 100 } 1100 100 rfl rfl
      (by norm_num)).1.mpr
    (by constructor
        · norm_num [defaultTrackerConfig]
        · norm_num [defaultTrackerConfig])

/-! ## Claim theorems: alert lifecycle -/

theorem alertStep_fst (a e : Bool) : (alertStep a e).1 = e := by
  cases a <;> cases e <;> rfl

theorem alertStep_snd (a e : Bool) :
    (alertStep a e).2 = if e && !a then 1 else 0 := by
  cases a <;> cases e <;> rfl

theorem alertRun_snd_eq_risingEdges (evs : List Bool) :
    ∀ a : Bool, (alertRun a evs).2 = risingEdges a evs := by
  induction evs with
  | nil => intro a; rfl
  | cons e es ih =>
    intro a
    simp [alertRun, risingEdges, alertStep_fst, alertStep_snd, ih]

theorem alertRun_fst (evs : List Bool) :
    ∀ a : Bool, (alertRun a evs).1 = lastEval a evs := by
  induction evs with
  | nil => intro a; rfl
  | cons e es ih =>
    intro a
    simp [alertRun, alertStep_fst, ih, lastEval]

/-- C5: per alert rule key, the `_check_alerts` lifecycle dispatches exactly
one notification per transition from not-firing to firing: over any sequence
of rule evaluations the total number of alerts fired equals the number of
rising (false-to-true) edges, the active flag always equals the latest
evaluation, a true evaluation while the key is already active fires nothing,
and a true evaluation of an inactive key fires exactly one. -/
theorem claim_C5_alert_dedup (a : Bool) (evs : List Bool) :
    (alertRun a evs).2 = risingEdges a evs ∧
    (alertRun a evs).1 = lastEval a evs ∧
    (∀ e : Bool, (alertStep true e).2 = 0) ∧
    (alertStep false true).2 = 1 := by
  refine ⟨alertRun_snd_eq_risingEdges evs a, alertRun_fst evs a, ?_, rfl⟩
  intro e; cases e <;> rfl

/-! ## Claim theorems: metrics collector -/

/-- C6: `get_metric_stats` over a window containing no samples returns the
explicit no-data result (`none`, for the empty dict the code returns), which
is distinct from a zero-filled statistics record; over a window containing
exactly the samples 10, 20, 30 it returns count 3, min 10, max 30, avg 20,
median 20, and a standard deviation of 10 (the sample variance it is the
square root of being 100). -/
theorem claim_C6_stats_no_data_vs_values :
    getMetricStats [("m", [⟨5, 0⟩])] "m" 10 100 = none ∧
    getMetricStats [("m", [⟨99, -100⟩, ⟨10, 1⟩, ⟨20, 2⟩, ⟨30, 3⟩])] "m" 60 3 =
      some { count := 3, min := 10, max := 30, avg := 20, median := 20,
             std_sq := 100 } ∧
    MetricStats.stdIs
      { count := 3, min := 10, max := 30, avg := 20, median := 20,
        std_sq := 100 } 10 ∧
    getMetricStats [("m", [⟨5, 0⟩])] "m" 10 100 ≠
      some { count := 0, min := 0, max := 0, avg := 0, median := 0,
             std_sq := 0 } := by
  refine ⟨?_, ?_, ?_, ?_⟩
  · norm_num [getMetricStats, getMetricHistory, lookupStore]
  · norm_num [getMetricStats, getMetricHistory, lookupStore, medianOf,
      List.insertionSort, List.orderedInsert]
  · constructor
    · norm_num
    · norm_num [MetricStats.stdIs]
  · intro hcontra
    rw [show getMetricStats [("m", [⟨5, 0⟩])] "m" 10 100 = none by
      norm_num [getMetricStats, getMetricHistory, lookupStore]] at hcontra
    cases hcontra

/-! ## Claim theorems: bounded metric store -/

theorem lookupStore_updateStore_self (st : MetricStore) (name : String)
    (f : List Metric → List Metric) :
    lookupStore (updateStore st name f) name =
      some (f ((lookupStore st name).getD [])) := by
  induction st with
  | nil => simp [lookupStore, updateStore]
  | cons p rest ih =>
    rcases p with ⟨n, ms⟩
    by_cases hn : n = name
    · simp [lookupStore, updateStore, hn]
    · simp [lookupStore, updateStore, hn, ih]

theorem lookupStore_updateStore_ne (st : MetricStore) (name n : String)
    (f : List Metric → List Metric) (hne : n ≠ name) :
    lookupStore (updateStore st name f) n = lookupStore st n := by
  induction st with
  | nil =>
    simp only [updateStore, lookupStore]
    rw [if_neg (fun hcontra : name = n => hne hcontra.symm)]
  | cons p rest ih =>
    rcases p with ⟨n2, ms⟩
    simp only [updateStore]
    by_cases hn2 : n2 = name
    · rw [if_pos hn2]
      subst hn2
      simp only [lookupStore]
      rw [if_neg (fun hcontra : n2 = n => hne hcontra.symm),
        if_neg (fun hcontra : n2 = n => hne hcontra.symm)]
    · rw [if_neg hn2]
      simp only [lookupStore]
      by_cases hn3 : n2 = n
      · rw [if_pos hn3, if_pos hn3]
      · rw [if_neg hn3, if_neg hn3, ih]

theorem applyRecords_lookup (cap : ℕ) (name : String) :
    ∀ (calls : List (String × Metric)) (st : MetricStore),
      (lookupStore
        (calls.foldl (fun st c => recordMetric cap st c.1 c.2) st)
        name).getD [] =
      List.foldl (pushCap cap) ((lookupStore st name).getD [])
        (projectCalls name calls) := by
  intro calls
  induction calls with
  | nil => intro st; rfl
  | cons c cs ih =>
    intro st
    rcases c with ⟨n, m⟩
    by_cases hn : n = name
    · subst hn
      rw [List.foldl_cons, ih (recordMetric cap st n m)]
      have hproj : projectCalls n ((n, m) :: cs) = m :: projectCalls n cs := by
        simp [projectCalls]
      rw [hproj, List.foldl_cons]
      have hl : lookupStore (recordMetric cap st n m) n =
          some (pushCap cap ((lookupStore st n).getD []) m) :=
        lookupStore_updateStore_self st n _
      rw [hl]
      rfl
    · rw [List.foldl_cons, ih (recordMetric cap st n m)]
      have hproj : projectCalls name ((n, m) :: cs) = projectCalls name cs := by
        simp [projectCalls, hn]
      rw [hproj]
      have hl : lookupStore (recordMetric cap st n m) name =
          lookupStore st name :=
        lookupStore_updateStore_ne st n name _
          (fun hcontra : name = n => hn hcontra.symm)
      rw [hl]

theorem foldl_pushCap (cap : ℕ) (hcap : 1 ≤ cap) :
    ∀ (xs acc : List Metric), acc.length ≤ cap →
      List.foldl (pushCap cap) acc xs =
        (acc ++ xs).drop (acc.length + xs.length - cap) := by
  intro xs
  induction xs with
  | nil =>
    intro acc hacc
    simp [Nat.sub_eq_zero_of_le hacc]
  | cons x xs ih =>
    intro acc hacc
    rw [List.foldl_cons]
    by_cases hlt : acc.length < cap
    · have hpush : pushCap cap acc x = acc ++ [x] := by
        simp [pushCap, hlt]
      rw [hpush, ih (acc ++ [x]) (by simp; omega)]
      have harr : (acc ++ [x]) ++ xs = acc ++ x :: xs := by simp
      rw [harr]
      congr 1
      simp
      omega
    · have hlen : acc.length = cap := by omega
      have hpush : pushCap cap acc x = acc.drop 1 ++ [x] := by
        simp [pushCap, hlt]
      rw [hpush, ih (acc.drop 1 ++ [x]) (by simp [List.length_drop]; omega)]
      rcases acc with _ | ⟨a, acc2⟩
      · exfalso
        simp only [List.length_nil] at hlen
        omega
      · simp only [List.drop_succ_cons, List.drop_zero, List.length_append,
          List.length_cons, List.length_drop] at *
        have h1 : (acc2 ++ [x]) ++ xs = acc2 ++ x :: xs := by simp
        rw [h1]
        have h2 : (a :: acc2 ++ x :: xs) = a :: (acc2 ++ x :: xs) := rfl
        rw [h2]
        have harith : acc2.length + 1 + (xs.length + 1) - cap =
            (acc2.length + 1 + xs.length - cap) + 1 := by omega
        rw [harith, List.drop_succ_cons]
        congr 1

/-- C9: for every metric name, after any sequence of `record_metric` calls
starting from a fresh collector with `retention_hours = h ≥ 1`, the stored
sample sequence for that name is exactly the suffix of the samples recorded
under that name, in insertion order, holding at most `h * 60` entries (the
oldest entry evicted when a new one is appended at capacity). -/
theorem claim_C9_bounded_insertion_order (h : ℕ) (hh : 1 ≤ h) (name : String)
    (calls : List (String × Metric)) :
    (lookupStore (applyRecords (h * 60) calls) name).getD [] =
      (projectCalls name calls).drop
        ((projectCalls name calls).length - h * 60) ∧
    ((lookupStore (applyRecords (h * 60) calls) name).getD []).length ≤
      h * 60 := by
  have hcap : 1 ≤ h * 60 := by omega
  have h1 := applyRecords_lookup (h * 60) name calls []
  have h0 : (lookupStore ([] : MetricStore) name).getD [] = [] := rfl
  rw [h0] at h1
  have h2 := foldl_pushCap (h * 60) hcap (projectCalls name calls) []
    (by simp)
  rw [h2] at h1
  simp only [List.nil_append, List.length_nil, Nat.zero_add] at h1
  constructor
  · rw [applyRecords, h1]
  · rw [applyRecords, h1]
    simp only [List.length_drop]
    omega

/-- Witness for C9: retention 1 hour (capacity 60), two samples recorded
under "a" and one under "b"; the sequence for "a" is both samples in order. -/
theorem claim_C9_witness :
    (lookupStore
        (applyRecords (1 * 60)
          [("a", ⟨1, 1⟩), ("b", ⟨9, 2⟩), ("a", ⟨2, 3⟩)]) "a").getD [] =
      [⟨1, 1⟩, ⟨2, 3⟩] :=
  (claim_C9_bounded_insertion_order 1 le_rfl "a"
    [("a", ⟨1, 1⟩), ("b", ⟨9, 2⟩), ("a", ⟨2, 3⟩)]).1

end Spec2Proof
